import Mathlib

/-!
Verification of the evolutionary ascent-learning engine (`learn-ascent.py`).

The engine evolves "Profiles" (parameter vectors `gt0`, `gt1`, `curve`,
`endAngle`) against an external trajectory simulator.  We shallowly embed
the Python 2 source: machine floats become exact rationals, the external
float primitives (`math.sqrt`, `x ** 0.5`, `ascent.climbSlope(..).deltaV()`,
string-to-float conversion) become abstract function parameters carried in
the configuration, and the pseudo-random source becomes an explicit stream
of draws threaded through every operation.
-/

namespace LearnAscent

/-- Abstract pseudo-random source: a stream of `random.random()` draws
(`qstream`, rationals, intended in `[0,1)`) and a stream of integer draws
(`istream`) backing `random.randint` / `random.choice`.  Positions advance
as draws are consumed. -/
structure Rand where
  qstream : ℕ → ℚ
  istream : ℕ → ℕ
  qpos : ℕ
  ipos : ℕ

/-- Consume one `random.random()` draw. -/
def Rand.nextQ (g : Rand) : ℚ × Rand :=
  (g.qstream g.qpos, { g with qpos := g.qpos + 1 })

/-- Consume one integer draw (used for `random.randint(0, n)` and
`random.choice`, reduced into range with `%` at the use site). -/
def Rand.nextI (g : Rand) : ℕ × Rand :=
  (g.istream g.ipos, { g with ipos := g.ipos + 1 })

/-- The run environment installed by `Profile.init` plus the external
numeric primitives.  `msqrt` models the float square root (`math.sqrt`
and `** 0.5`); `climbSlope` models
`ascent.climbSlope(planet, orbitAltitude, gravityTurnStart, gravityTurnEnd,
gravityTurnCurve, acceleration, initialAltitude, dragCoefficient,
endAngleDeg)` composed with `.deltaV()`, returning `none` exactly when the
simulator raises `BadFlightPlanException`. -/
structure Config where
  planetGravity : ℚ
  alt0 : ℚ
  alt1 : ℚ
  accel : ℚ
  drag : ℚ
  msqrt : ℚ → ℚ
  climbSlope : ℚ → ℚ → ℚ → ℚ → ℚ → ℚ → ℚ → ℚ → Option ℚ

/-- Module constant `VARY_END_ANGLE = False`. -/
def VARY_END_ANGLE : Bool := false

/-- Module constant `STABLE_ITERATIONS = 1000`. -/
def STABLE_ITERATIONS : ℕ := 1000

/-- Class constant `Profile.MAX_CACHE_SIZE = 10000`. -/
def MAX_CACHE_SIZE : ℕ := 10000

/-- A parameter vector: the four clamped, rounded fields plus the cached
score and the `generation` bookkeeping tag set in the generation loop. -/
structure Profile where
  gt0 : ℚ
  gt1 : ℚ
  curve : ℚ
  endAngle : ℚ
  score : ℚ
  generation : ℕ
deriving DecidableEq, Repr

/-- Round half away from zero, the rounding of Python 2's builtin
`round` (idealised over exact rationals). -/
def rha (q : ℚ) : ℤ :=
  if 0 ≤ q then ⌊q + 1/2⌋ else -⌊-q + 1/2⌋

/-- Python 2 `round(x, n)`: round to `n` decimal places, halves away from zero. -/
def pyRound (n : ℕ) (x : ℚ) : ℚ :=
  (rha (x * 10 ^ n) : ℚ) / 10 ^ n

/-- The quantisation of `Profile.__init__`: precision limiting
(`round(x, 2)` on the altitudes and end angle, `round(curve, 3)`) followed
by the clamps `min(max(gt0, 0), alt1)`, `min(max(gt1, 0), alt1)`,
`min(max(curve, 0), 1)` and — since `VARY_END_ANGLE` is false — the
constant `0` end angle.  The result is exactly the tuple used as the
fitness-cache key. -/
def quantKey (cfg : Config) (gt0 gt1 curve endAngle : ℚ) : ℚ × ℚ × ℚ × ℚ :=
  (min (max (pyRound 2 gt0) 0) cfg.alt1,
   min (max (pyRound 2 gt1) 0) cfg.alt1,
   min (max (pyRound 3 curve) 0) 1,
   if VARY_END_ANGLE then min (max (pyRound 2 endAngle) (-10)) 90 else 0)

/-- The fitness cache (`Profile.cache`) as an association list from
quantised key tuples to scores, plus `evalCount`, an observation counter
of Evaluator Adapter invocations (instrumentation only — it is not
program state and is never read by the engine). -/
structure CacheSt where
  entries : List ((ℚ × ℚ × ℚ × ℚ) × ℚ)
  evalCount : ℕ
deriving DecidableEq, Repr

/-- Lookup `cache.get(key, None)`. -/
def cacheGet (entries : List ((ℚ × ℚ × ℚ × ℚ) × ℚ)) (k : ℚ × ℚ × ℚ × ℚ) : Option ℚ :=
  match entries with
  | [] => none
  | (k', v) :: rest => if k' = k then some v else cacheGet rest k

/-- Scoring `Profile._calc_score`: call the external simulator with kilometres
converted to metres and the acceleration multiplier converted through the
planet's surface gravity; `BadFlightPlanException` becomes the sentinel
score `-1`. -/
def calc_score (cfg : Config) (gt0 gt1 curve endAngle : ℚ) : ℚ :=
  match cfg.climbSlope (cfg.alt1 * 1000) (gt0 * 1000) (gt1 * 1000) curve
      (cfg.planetGravity * cfg.accel) (cfg.alt0 * 1000) cfg.drag endAngle with
  | some dv => dv
  | none => -1

/-- Constructor `Profile.__init__(gt0, gt1, curve, endAngle)`: quantise and clamp the
fields, look the key up in the fitness cache; on a miss, evict a
randomly chosen entry if the cache is full, invoke the evaluator once and
insert the result.  `generation` starts at `1`. -/
def mkProfile (cfg : Config) (st : CacheSt) (g : Rand) (gt0 gt1 curve endAngle : ℚ) :
    Profile × CacheSt × Rand :=
  let k := quantKey cfg gt0 gt1 curve endAngle
  match cacheGet st.entries k with
  | some s => (⟨k.1, k.2.1, k.2.2.1, k.2.2.2, s, 1⟩, st, g)
  | none =>
    let eg :=
      if st.entries.length = MAX_CACHE_SIZE then
        let ig := g.nextI
        (st.entries.eraseIdx (ig.1 % st.entries.length), ig.2)
      else (st.entries, g)
    let s := calc_score cfg k.1 k.2.1 k.2.2.1 k.2.2.2
    (⟨k.1, k.2.1, k.2.2.1, k.2.2.2, s, 1⟩, ⟨(k, s) :: eg.1, st.evalCount + 1⟩, eg.2)

/-- The quantised key tuple of a constructed profile. -/
def profileKey (p : Profile) : ℚ × ℚ × ℚ × ℚ :=
  (p.gt0, p.gt1, p.curve, p.endAngle)

/-- Sampler `Profile.random`: sample `gt0` in `[0, alt1/2)`, `gt1` in
`[gt0, alt1)`, `curve` in `[0, 2)` and `endAngle` in `[0, 90)` from four
successive draws, then construct. -/
def randomP (cfg : Config) (st : CacheSt) (g : Rand) : Profile × CacheSt × Rand :=
  let r1 := g.nextQ
  let gt0 := r1.1 * (cfg.alt1 / 2)
  let r2 := r1.2.nextQ
  let gt1 := gt0 + r2.1 * (cfg.alt1 - gt0)
  let r3 := r2.2.nextQ
  let curve := r3.1 * 2
  let r4 := r3.2.nextQ
  let endAngle := r4.1 * 90
  mkProfile cfg st r4.2 gt0 gt1 curve endAngle

/-- Perturbation `Profile._mutate(value)` given the `random.random()` draw `r`:
`value + (r - 0.5) * (sqrt(|value|) if value else 1) * amount` with the
fixed `amount = 0.1` (the generation-based scaling is commented out in the
source). -/
def pymutate (cfg : Config) (value r : ℚ) : ℚ :=
  value + (r - 1/2) * (if value = 0 then 1 else cfg.msqrt |value|) * (1/10)

/-- Mutation `Profile.mutated`: pick one of the four fields with
`random.randint(0, 3)` (the integer draw reduced by `% 4`), perturb it
with `_mutate`, and reconstruct. -/
def mutatedP (cfg : Config) (p : Profile) (st : CacheSt) (g : Rand) :
    Profile × CacheSt × Rand :=
  let vals := [p.gt0, p.gt1, p.curve, p.endAngle]
  let ig := g.nextI
  let i := ig.1 % 4
  let rg := ig.2.nextQ
  let vals' := vals.set i (pymutate cfg (vals.getD i 0) rg.1)
  mkProfile cfg st rg.2 (vals'.getD 0 0) (vals'.getD 1 0) (vals'.getD 2 0) (vals'.getD 3 0)

/-- Blend `Profile._combine(a, b)`: the magnitude blend `(a² + b²) ** 0.5`
followed by `_mutate` with the draw `r`. -/
def combineVal (cfg : Config) (a b r : ℚ) : ℚ :=
  pymutate cfg (cfg.msqrt (a ^ 2 + b ^ 2)) r

/-- Crossover `Profile.combine(other)`: blend-and-perturb each field (four draws,
in field order) and reconstruct. -/
def combineP (cfg : Config) (p q : Profile) (st : CacheSt) (g : Rand) :
    Profile × CacheSt × Rand :=
  let r1 := g.nextQ
  let r2 := r1.2.nextQ
  let r3 := r2.2.nextQ
  let r4 := r3.2.nextQ
  mkProfile cfg st r4.2
    (combineVal cfg p.gt0 q.gt0 r1.1)
    (combineVal cfg p.gt1 q.gt1 r2.1)
    (combineVal cfg p.curve q.curve r3.1)
    (combineVal cfg p.endAngle q.endAngle r4.1)

/-- The token-level body of `Profile.from_string` (after
`[float(f) for f in str.strip().split(" ")]` has produced `tokens`):
`if len(tokens) == 5: tokens.append(-1)`, then unpack
`(gt0, gt1, curve, endAngle, score) = tokens[:5]` and construct.
Unpacking fewer than five values raises `ValueError` in Python, which we
model as `none`. -/
def from_tokens (cfg : Config) (st : CacheSt) (g : Rand) (tokens : List ℚ) :
    Option (Profile × CacheSt × Rand) :=
  match (if tokens.length = 5 then tokens ++ [-1] else tokens).take 5 with
  | [gt0, gt1, curve, endAngle, _score] => some (mkProfile cfg st g gt0 gt1 curve endAngle)
  | _ => none

/-- A Python string, modelled as its character sequence (Lean's `String`
primitives do not reduce in the kernel, so persisted lines are embedded
at the character level). -/
abbrev PyStr : Type := List Char

/-- Python `str.strip()`: drop whitespace from both ends. -/
def pyStrip (s : PyStr) : PyStr :=
  ((s.dropWhile Char.isWhitespace).reverse.dropWhile Char.isWhitespace).reverse

/-- Python `str.split(" ")`: split on every single space, keeping empty parts
(so `"".split(" ") == [""]` and a double space yields an empty field). -/
def pySplitSpace : PyStr → List PyStr
  | [] => [[]]
  | c :: rest =>
    if c = ' ' then [] :: pySplitSpace rest
    else
      match pySplitSpace rest with
      | t :: ts => (c :: t) :: ts
      | [] => [[c]]

/-- Python `str.startswith("#")`. -/
def pyStartsWithHash : PyStr → Bool
  | [] => false
  | c :: _ => c = '#'

/-- Parser `Profile.from_string(str)`: strip, split on single spaces, convert
every field with the external `float` parser `pf` (a failing conversion,
e.g. on an empty or non-numeric field, raises in Python and is modelled
as `none`), then build via `from_tokens`. -/
def from_string (pf : PyStr → Option ℚ) (cfg : Config) (st : CacheSt) (g : Rand)
    (s : PyStr) : Option (Profile × CacheSt × Rand) :=
  match (pySplitSpace (pyStrip s)).mapM pf with
  | none => none
  | some tokens => from_tokens cfg st g tokens

/-- Ordering `Profile.__lt__`: `self.score != -1 and self.score < other.score`.
Note this relation is not total on sentinel scores. -/
def profile_lt (a b : Profile) : Bool :=
  decide (a.score ≠ -1) && decide (a.score < b.score)

/-- Comparison `Profile.better_than(other)`:
`(not other) or other.score < 0 or (self.score > 0 and self.score < other.score)`. -/
def better_than (p : Profile) (o : Option Profile) : Bool :=
  match o with
  | none => true
  | some q => decide (q.score < 0) || (decide ((0 : ℚ) < p.score) && decide (p.score < q.score))

/-- Comparison `Profile.worse_than(other)`: `(not other) or self.score > other.score`. -/
def worse_than (p : Profile) (o : Option Profile) : Bool :=
  match o with
  | none => true
  | some q => decide (q.score < p.score)

/-- Insert into a list sorted ascending by `__lt__`, keeping the new
element after existing elements it does not compare strictly below. -/
def insertP (x : Profile) : List Profile → List Profile
  | [] => [x]
  | y :: ys => if profile_lt x y then x :: y :: ys else y :: insertP x ys

/-- Sorting `candidates.sort()`: a stable ascending sort driven by `__lt__`.
On the candidate lists the engine sorts, every score is strictly
positive, so `__lt__` is a total strict order there and any stable sort
(CPython's Timsort included) produces this result. -/
def pySort (l : List Profile) : List Profile :=
  l.foldl (fun acc x => insertP x acc) []

/-- The walk inside `select`: `orig` is the whole pool (for the
`pool[-1]` fallback), `l` the remaining positions.  Each position draws
`random.random()` and is chosen when the draw exceeds `s`.  An empty
`orig` makes the fallback `pool[-1]` raise `IndexError`, modelled as
`none` (`getLast?`). -/
def selectGo (s : ℚ) (orig : List Profile) : List Profile → Rand → Option Profile × Rand
  | [], g => (orig.getLast?, g)
  | p :: rest, g =>
    let rg := g.nextQ
    if s < rg.1 then (some p, rg.2) else selectGo s orig rest rg.2

/-- Selection `select(pool, s)`. -/
def select (pool : List Profile) (s : ℚ) (g : Rand) : Option Profile × Rand :=
  selectGo s pool pool g

/-- The per-generation scan accumulator of `learnAscent`: `best`,
`worst`, `bestEver`, `bestThisRound`, `lastChange`, `total`, `successes`
and the growing `candidates` list. -/
structure EvalAcc where
  best : Option Profile
  worst : Option Profile
  bestEver : Option Profile
  bestThisRound : Option Profile
  lastChange : ℕ
  total : ℚ
  successes : ℕ
  candidates : List Profile

/-- One iteration of `for profile in pool:` — set `profile.generation`,
update `best` / `bestEver` / `bestThisRound` (recording `lastChange`),
update `worst`, and append profiles with `score > 0` to `candidates`. -/
def evalStep (gen : ℕ) (acc : EvalAcc) (p0 : Profile) : EvalAcc :=
  let p := { p0 with generation := gen }
  let acc :=
    if better_than p acc.best then
      let acc :=
        if better_than p acc.bestEver then { acc with bestEver := some p } else acc
      let acc := { acc with best := some p }
      if better_than p acc.bestThisRound then
        { acc with lastChange := gen, bestThisRound := some p }
      else acc
    else acc
  let acc := if worse_than p acc.worst then { acc with worst := some p } else acc
  if (0 : ℚ) < p.score then
    { acc with total := acc.total + p.score, successes := acc.successes + 1,
               candidates := acc.candidates ++ [p] }
  else acc

/-- The whole evaluation scan of a generation. -/
def evalPhase (gen : ℕ) (pool : List Profile) (bestEver bestThisRound : Option Profile)
    (lastChange : ℕ) : EvalAcc :=
  pool.foldl (evalStep gen)
    ⟨none, none, bestEver, bestThisRound, lastChange, 0, 0, []⟩

/-- The crossover loop
`while len(newPool) < min(poolSize / 2, successes):` with `SELECT_P = 0.5`
(`poolSize / 2` is Python 2 integer division).  `fuel` bounds the
iterations (`bound` always suffices since each pass appends one
offspring); selecting from an empty candidate list would raise
`IndexError` in the source and simply stops here — the safety claim shows
that branch is unreachable. -/
def crossLoop (cfg : Config) (cands : List Profile) (bound : ℕ) :
    ℕ → List Profile → CacheSt → Rand → List Profile × CacheSt × Rand
  | 0, acc, st, g => (acc, st, g)
  | fuel + 1, acc, st, g =>
    if acc.length < bound then
      let ag := select cands (1/2) g
      let bg := select cands (1/2) ag.2
      match ag.1, bg.1 with
      | some a, some b =>
        let cg := combineP cfg a b st bg.2
        crossLoop cfg cands bound fuel (acc ++ [cg.1]) cg.2.1 cg.2.2
      | _, _ => (acc, st, g)
    else (acc, st, g)

/-- The refill loop `while len(newPool) < poolSize: newPool.append(Profile.random())`
(also the warm-start padding loop).  `fuel` bounds the iterations;
`poolSize` always suffices. -/
def refillLoop (cfg : Config) (ps : ℕ) :
    ℕ → List Profile → CacheSt → Rand → List Profile × CacheSt × Rand
  | 0, acc, st, g => (acc, st, g)
  | fuel + 1, acc, st, g =>
    if acc.length < ps then
      let pg := randomP cfg st g
      refillLoop cfg ps fuel (acc ++ [pg.1]) pg.2.1 pg.2.2
    else (acc, st, g)

/-- Seeding plus crossover: `newPool = []`, then — when candidates exist —
append the sorted-first candidate and one mutation of it, then run the
crossover loop. -/
def reproducePhase (cfg : Config) (ps : ℕ) (cands : List Profile) (successes : ℕ)
    (st : CacheSt) (g : Rand) : List Profile × CacheSt × Rand :=
  match cands with
  | [] => crossLoop cfg [] (min (ps / 2) successes) (min (ps / 2) successes) [] st g
  | c :: rest =>
    let mg := mutatedP cfg c st g
    crossLoop cfg (c :: rest) (min (ps / 2) successes) (min (ps / 2) successes)
      [c, mg.1] mg.2.1 mg.2.2

/-- The mutable state of the generation loop. -/
structure LoopSt where
  pool : List Profile
  bestEver : Option Profile
  bestThisRound : Option Profile
  gen : ℕ
  lastChange : ℕ
  cache : CacheSt
  rng : Rand

/-- The evaluation scan of one pass of the loop, applied to the loop
state. -/
def genEval (s : LoopSt) : EvalAcc :=
  evalPhase s.gen s.pool s.bestEver s.bestThisRound s.lastChange

/-- The reproduction phase of one pass of the loop (elitism seeding plus
crossover on the sorted candidates), applied to the loop state. -/
def genRepro (cfg : Config) (ps : ℕ) (s : LoopSt) : List Profile × CacheSt × Rand :=
  reproducePhase cfg ps (pySort (genEval s).candidates) (genEval s).successes s.cache s.rng

/-- One pass of the `while True:` generation loop: evaluate, sort the
candidates, seed and cross over, apply the stagnation check
(`if gen >= lastChange + STABLE_ITERATIONS:` discard the reproduced
members, clear the fitness cache, restart the clock, forget
`bestThisRound`), refill with random profiles, and advance `gen`. -/
def stepGen (cfg : Config) (ps : ℕ) (s : LoopSt) : LoopSt :=
  let e := genEval s
  let r := genRepro cfg ps s
  if e.lastChange + STABLE_ITERATIONS ≤ s.gen then
    let f := refillLoop cfg ps ps [] ⟨[], r.2.1.evalCount⟩ r.2.2
    { pool := f.1, bestEver := e.bestEver, bestThisRound := none,
      gen := s.gen + 1, lastChange := s.gen, cache := f.2.1, rng := f.2.2 }
  else
    let f := refillLoop cfg ps ps r.1 r.2.1 r.2.2
    { pool := f.1, bestEver := e.bestEver, bestThisRound := e.bestThisRound,
      gen := s.gen + 1, lastChange := e.lastChange, cache := f.2.1, rng := f.2.2 }

/-- The line filter of the warm-start loop:
`if line and not line.startswith("#"):` applied to the stripped line. -/
def keptLine (s : PyStr) : Bool :=
  !(decide (pyStrip s = [])) && !(pyStartsWithHash (pyStrip s))

/-- Warm-start parsing of the state file's lines: strip each line, skip
blank lines and lines starting with `#`, build one profile per remaining
line with `Profile.from_string`; a line that fails to parse propagates
the failure (the Python code would raise). -/
def loadPool (pf : PyStr → Option ℚ) (cfg : Config) :
    List PyStr → CacheSt → Rand → Option (List Profile × CacheSt × Rand)
  | [], st, g => some ([], st, g)
  | s :: rest, st, g =>
    if keptLine s then
      match from_string pf cfg st g (pyStrip s) with
      | none => none
      | some pg =>
        match loadPool pf cfg rest pg.2.1 pg.2.2 with
        | none => none
        | some rg => some (pg.1 :: rg.1, rg.2.1, rg.2.2)
    else loadPool pf cfg rest st g

/-- The start-up population build of `learnAscent` (lines 186–197):
`pool = []`; the state file is read only under
`if fileIn and os.path.exists(fileIn) and not SILENT:` — `fileExists`
stands for the first two conjuncts — and then the pool is padded with
`Profile.random()` up to `poolSize`. -/
def initialPool (pf : PyStr → Option ℚ) (cfg : Config) (silent fileExists : Bool)
    (lines : List PyStr) (ps : ℕ) (st : CacheSt) (g : Rand) :
    Option (List Profile × CacheSt × Rand) :=
  let loaded :=
    if fileExists && !silent then loadPool pf cfg lines st g
    else some ([], st, g)
  match loaded with
  | none => none
  | some lg => some (refillLoop cfg ps ps lg.1 lg.2.1 lg.2.2)

/-! ### Concrete fixtures used by counterexamples and witnesses -/

/-- A concrete run environment: domain ceiling `alt1 = 100` km, a stub
square root that returns `1`, and a stub simulator whose every flight
costs `5`. -/
def cfg0 : Config :=
  { planetGravity := 1, alt0 := 0, alt1 := 100, accel := 1, drag := 0,
    msqrt := fun _ => 1, climbSlope := fun _ _ _ _ _ _ _ _ => some 5 }

/-- The all-zero random source. -/
def g0 : Rand := ⟨fun _ => 0, fun _ => 0, 0, 0⟩

/-- The profile `cfg0`'s constructor yields from raw `(1, 2, 0.5, 0)`. -/
def p5 : Profile := ⟨1, 2, 1/2, 0, 5, 1⟩

/-- A cache holding exactly `p5`'s entry. -/
def st5 : CacheSt := ⟨[((1, 2, 1/2, 0), 5)], 1⟩

/-- A stagnant loop state: generation `1000` with no improvement since
generation `0` (`bestThisRound` already holds `p5`, which the pool cannot
beat), so the reset condition `gen >= lastChange + STABLE_ITERATIONS`
holds with difference exactly `1000`. -/
def s0 : LoopSt := ⟨[p5], some p5, some p5, 1000, 0, st5, g0⟩

/-- A fresh loop state at generation `1`: the reset condition is far from
firing. -/
def s1 : LoopSt := ⟨[p5], some p5, some p5, 1, 1, st5, g0⟩

/-! ### Constructor lemmas -/

theorem mkProfile_gt0 (cfg : Config) (st : CacheSt) (g : Rand) (a b c d : ℚ) :
    (mkProfile cfg st g a b c d).1.gt0 = (quantKey cfg a b c d).1 := by
  cases h : cacheGet st.entries (quantKey cfg a b c d) <;> simp [mkProfile, h]

theorem mkProfile_gt1 (cfg : Config) (st : CacheSt) (g : Rand) (a b c d : ℚ) :
    (mkProfile cfg st g a b c d).1.gt1 = (quantKey cfg a b c d).2.1 := by
  cases h : cacheGet st.entries (quantKey cfg a b c d) <;> simp [mkProfile, h]

theorem mkProfile_curve (cfg : Config) (st : CacheSt) (g : Rand) (a b c d : ℚ) :
    (mkProfile cfg st g a b c d).1.curve = (quantKey cfg a b c d).2.2.1 := by
  cases h : cacheGet st.entries (quantKey cfg a b c d) <;> simp [mkProfile, h]

theorem mkProfile_endAngle (cfg : Config) (st : CacheSt) (g : Rand) (a b c d : ℚ) :
    (mkProfile cfg st g a b c d).1.endAngle = (quantKey cfg a b c d).2.2.2 := by
  cases h : cacheGet st.entries (quantKey cfg a b c d) <;> simp [mkProfile, h]

/-- The documented domain invariant of a constructed vector: both
altitudes in `[0, alt1]`, the curve exponent in `[0, 1]`. -/
def fieldsClamped (cfg : Config) (p : Profile) : Prop :=
  0 ≤ p.gt0 ∧ p.gt0 ≤ cfg.alt1 ∧ 0 ≤ p.gt1 ∧ p.gt1 ≤ cfg.alt1 ∧
    0 ≤ p.curve ∧ p.curve ≤ 1

theorem quantKey_bounds (cfg : Config) (h : 0 ≤ cfg.alt1) (a b c d : ℚ) :
    0 ≤ (quantKey cfg a b c d).1 ∧ (quantKey cfg a b c d).1 ≤ cfg.alt1 ∧
      0 ≤ (quantKey cfg a b c d).2.1 ∧ (quantKey cfg a b c d).2.1 ≤ cfg.alt1 ∧
      0 ≤ (quantKey cfg a b c d).2.2.1 ∧ (quantKey cfg a b c d).2.2.1 ≤ 1 := by
  unfold quantKey
  exact ⟨le_min (le_max_right _ _) h, min_le_right _ _,
    le_min (le_max_right _ _) h, min_le_right _ _,
    le_min (le_max_right _ _) zero_le_one, min_le_right _ _⟩

theorem mkProfile_clamped (cfg : Config) (h : 0 ≤ cfg.alt1) (st : CacheSt) (g : Rand)
    (a b c d : ℚ) : fieldsClamped cfg (mkProfile cfg st g a b c d).1 := by
  obtain ⟨h1, h2, h3, h4, h5, h6⟩ := quantKey_bounds cfg h a b c d
  rw [fieldsClamped, mkProfile_gt0, mkProfile_gt1, mkProfile_curve]
  exact ⟨h1, h2, h3, h4, h5, h6⟩

theorem randomP_clamped (cfg : Config) (h : 0 ≤ cfg.alt1) (st : CacheSt) (g : Rand) :
    fieldsClamped cfg (randomP cfg st g).1 := by
  unfold randomP
  exact mkProfile_clamped cfg h _ _ _ _ _ _

theorem mutatedP_clamped (cfg : Config) (h : 0 ≤ cfg.alt1) (p : Profile) (st : CacheSt)
    (g : Rand) : fieldsClamped cfg (mutatedP cfg p st g).1 := by
  unfold mutatedP
  exact mkProfile_clamped cfg h _ _ _ _ _ _

theorem combineP_clamped (cfg : Config) (h : 0 ≤ cfg.alt1) (p q : Profile) (st : CacheSt)
    (g : Rand) : fieldsClamped cfg (combineP cfg p q st g).1 := by
  unfold combineP
  exact mkProfile_clamped cfg h _ _ _ _ _ _

theorem from_tokens_clamped (cfg : Config) (h : 0 ≤ cfg.alt1) (st : CacheSt) (g : Rand)
    (tokens : List ℚ) (r : Profile × CacheSt × Rand) (hr : from_tokens cfg st g tokens = some r) :
    fieldsClamped cfg r.1 := by
  unfold from_tokens at hr
  split at hr
  case _ => cases hr; exact mkProfile_clamped cfg h _ _ _ _ _ _
  case _ => exact Option.noConfusion hr

/-! ### Claim C5: clamped construction -/

/-- Claim C5 (amended).  Assuming a nonnegative domain ceiling, every
creation path that yields a Parameter Vector yields one with both
altitudes in `[0, alt1]` and the curve exponent in `[0, 1]`: direct
construction, random sampling, mutation and combination always succeed
with clamped fields, and parsing a persisted line yields clamped fields
whenever it succeeds. -/
theorem construction_always_clamped (cfg : Config) (h : 0 ≤ cfg.alt1) (st : CacheSt)
    (g : Rand) (a b c d : ℚ) (p q : Profile) (tokens : List ℚ) :
    fieldsClamped cfg (mkProfile cfg st g a b c d).1
    ∧ fieldsClamped cfg (randomP cfg st g).1
    ∧ fieldsClamped cfg (mutatedP cfg p st g).1
    ∧ fieldsClamped cfg (combineP cfg p q st g).1
    ∧ ∀ r, from_tokens cfg st g tokens = some r → fieldsClamped cfg r.1 :=
  ⟨mkProfile_clamped cfg h st g a b c d, randomP_clamped cfg h st g,
   mutatedP_clamped cfg h p st g, combineP_clamped cfg h p q st g,
   fun r hr => from_tokens_clamped cfg h st g tokens r hr⟩

/-- Claim C5 counterexample: on the parsing creation path, the raw
numeric input `[1, 2, 3]` (a three-field line) does not construct a
Parameter Vector at all — the five-way unpacking fails —
so construction does not succeed for all raw numeric inputs on every
creation path. -/
theorem construction_parse_short_counterexample :
    from_tokens cfg0 ⟨[], 0⟩ g0 [1, 2, 3] = none := rfl

/-- Witness for the amended C5 at concrete inputs. -/
theorem construction_always_clamped_witness :
    (0 ≤ cfg0.alt1)
    ∧ fieldsClamped cfg0 (mkProfile cfg0 ⟨[], 0⟩ g0 200 (-3) 7 1).1
    ∧ fieldsClamped cfg0 (randomP cfg0 ⟨[], 0⟩ g0).1
    ∧ fieldsClamped cfg0 (mutatedP cfg0 p5 ⟨[], 0⟩ g0).1
    ∧ fieldsClamped cfg0 (combineP cfg0 p5 p5 ⟨[], 0⟩ g0).1 :=
  ⟨by norm_num [cfg0],
   (construction_always_clamped cfg0 (by norm_num [cfg0]) ⟨[], 0⟩ g0 200 (-3) 7 1 p5 p5
     [1, 2, 3, 4, 5]).1,
   (construction_always_clamped cfg0 (by norm_num [cfg0]) ⟨[], 0⟩ g0 200 (-3) 7 1 p5 p5
     [1, 2, 3, 4, 5]).2.1,
   (construction_always_clamped cfg0 (by norm_num [cfg0]) ⟨[], 0⟩ g0 200 (-3) 7 1 p5 p5
     [1, 2, 3, 4, 5]).2.2.1,
   (construction_always_clamped cfg0 (by norm_num [cfg0]) ⟨[], 0⟩ g0 200 (-3) 7 1 p5 p5
     [1, 2, 3, 4, 5]).2.2.2.1⟩

/-! ### Claim C7: better_than / worse_than -/

/-- A vector carrying a valid zero score (the evaluator contract allows
any non-negative cost). -/
def pz : Profile := ⟨0, 0, 0, 0, 0, 1⟩

/-- A vector carrying the valid score `1`. -/
def pone : Profile := ⟨1, 1, 0, 0, 1, 1⟩

/-- Claim C7 counterexample: `pz` scores `0` — a valid, non-sentinel
score — and `pone` scores `1`; both scores are valid and `pz`'s is
numerically smaller, yet `better_than` returns `false` because the code
requires `self.score > 0`, not merely a valid score. -/
theorem better_than_zero_score_counterexample :
    better_than pz (some pone) = false
    ∧ pz.score ≠ -1 ∧ 0 ≤ pz.score ∧ 0 ≤ pone.score ∧ pz.score < pone.score := by
  refine ⟨?_, ?_, ?_, ?_, ?_⟩ <;> norm_num [better_than, pz, pone]

/-- Claim C7 (amended).  `better_than v t` is true exactly when `t` is
absent, or `t`'s score is negative (in particular the sentinel `-1`), or
`v`'s score is strictly positive and numerically smaller than `t`'s;
`worse_than v t` is true exactly when `t` is absent or `v`'s score is
strictly greater than `t`'s.  Consequently a sentinel-scored vector is
never `better_than` nor `worse_than` a present target whose score is
valid (non-negative), and any vector is `better_than` a sentinel-scored
or absent target. -/
theorem better_worse_than_spec (v : Profile) (t : Option Profile) :
    (better_than v t = true ↔
      t = none ∨ ∃ q, t = some q ∧ (q.score < 0 ∨ (0 < v.score ∧ v.score < q.score)))
    ∧ (worse_than v t = true ↔ t = none ∨ ∃ q, t = some q ∧ q.score < v.score)
    ∧ (v.score = -1 → ∀ q : Profile, 0 ≤ q.score → better_than v (some q) = false)
    ∧ (∀ q : Profile, q.score = -1 → better_than v (some q) = true)
    ∧ better_than v none = true
    ∧ (v.score = -1 → ∀ q : Profile, 0 ≤ q.score → worse_than v (some q) = false) := by
  refine ⟨?_, ?_, ?_, ?_, ?_, ?_⟩
  · cases t with
    | none => simp [better_than]
    | some q => simp [better_than]
  · cases t with
    | none => simp [worse_than]
    | some q => simp [worse_than]
  · intro hv q hq
    have h1 : ¬ q.score < 0 := not_lt.2 hq
    have h2 : ¬ (0 : ℚ) < v.score := by rw [hv]; norm_num
    simp [better_than, h1, h2]
  · intro q hq
    simp [better_than, hq]
  · simp [better_than]
  · intro hv q hq
    have h1 : ¬ q.score < v.score := by rw [hv]; exact not_lt.2 (by linarith)
    simp [worse_than, h1]

/-- Witness for the amended C7 at concrete inputs: `p5` (score `5`) is
`better_than` an absent target, `worse_than` the lower-scored `pone`,
and `better_than` a sentinel-scored target. -/
theorem better_worse_than_spec_witness :
    better_than p5 none = true
    ∧ worse_than p5 (some pone) = true
    ∧ better_than p5 (some ⟨0, 0, 0, 0, -1, 1⟩) = true :=
  ⟨(better_worse_than_spec p5 none).2.2.2.2.1,
   ((better_worse_than_spec p5 (some pone)).2.1).2
     (Or.inr ⟨pone, rfl, by norm_num [p5, pone]⟩),
   (better_worse_than_spec p5 (some ⟨0, 0, 0, 0, -1, 1⟩)).2.2.2.1 ⟨0, 0, 0, 0, -1, 1⟩ rfl⟩

/-! ### Evaluation-phase lemmas -/

theorem evalStep_bestEver_cases (gen : ℕ) (acc : EvalAcc) (p0 : Profile) :
    (evalStep gen acc p0).bestEver = acc.bestEver ∨
      (evalStep gen acc p0).bestEver = some { p0 with generation := gen } := by
  simp only [evalStep]
  split_ifs <;> simp

theorem evalStep_bestEver_ne_none (gen : ℕ) (acc : EvalAcc) (p0 : Profile)
    (h : acc.bestEver ≠ none) : (evalStep gen acc p0).bestEver ≠ none := by
  rcases evalStep_bestEver_cases gen acc p0 with h' | h' <;> simp [h', h]

theorem evalStep_bestEver_of_best_none (gen : ℕ) (acc : EvalAcc) (p0 : Profile)
    (hb : acc.best = none) : (evalStep gen acc p0).bestEver ≠ none := by
  simp only [evalStep, hb]
  have h1 : better_than { p0 with generation := gen } none = true := rfl
  rw [h1]
  cases hbe : acc.bestEver with
  | none =>
    rw [hbe] at *
    simp only [h1, if_true]
    split_ifs <;> simp
  | some b =>
    split_ifs <;> simp [hbe]

theorem foldl_evalStep_bestEver_ne_none (gen : ℕ) (l : List Profile) (acc : EvalAcc)
    (h : acc.bestEver ≠ none) : (l.foldl (evalStep gen) acc).bestEver ≠ none := by
  induction l generalizing acc with
  | nil => simpa using h
  | cons p rest ih => exact ih _ (evalStep_bestEver_ne_none gen acc p h)

/-- The best-ever pointer is either unset or holds a sentinel-scored
individual. -/
def sentinelOpt (o : Option Profile) : Prop :=
  o = none ∨ ∃ b, o = some b ∧ b.score = -1

theorem evalStep_bestEver_sentinel (gen : ℕ) (acc : EvalAcc) (p0 : Profile)
    (hp : p0.score = -1) (h : sentinelOpt acc.bestEver) :
    sentinelOpt (evalStep gen acc p0).bestEver := by
  rcases evalStep_bestEver_cases gen acc p0 with h' | h'
  · rw [sentinelOpt, h']; exact h
  · rw [sentinelOpt, h']
    exact Or.inr ⟨_, rfl, hp⟩

theorem foldl_evalStep_bestEver_sentinel (gen : ℕ) (l : List Profile) (acc : EvalAcc)
    (hl : ∀ p ∈ l, p.score = -1) (h : sentinelOpt acc.bestEver) :
    sentinelOpt ((l.foldl (evalStep gen) acc)).bestEver := by
  induction l generalizing acc with
  | nil => simpa using h
  | cons p rest ih =>
    exact ih _ (fun q hq => hl q (List.mem_cons_of_mem p hq))
      (evalStep_bestEver_sentinel gen acc p (hl p (List.mem_cons_self p rest)) h)

theorem evalPhase_bestEver_ne_none (gen : ℕ) (pool : List Profile)
    (bestEver bestThisRound : Option Profile) (lastChange : ℕ)
    (h : pool ≠ [] ∨ bestEver ≠ none) :
    (evalPhase gen pool bestEver bestThisRound lastChange).bestEver ≠ none := by
  rcases h with h | h
  · cases pool with
    | nil => exact absurd rfl h
    | cons p rest =>
      unfold evalPhase
      rw [List.foldl_cons]
      exact foldl_evalStep_bestEver_ne_none gen rest _
        (evalStep_bestEver_of_best_none gen _ p rfl)
  · exact foldl_evalStep_bestEver_ne_none gen pool _ h

/-! ### Claim C10: best-ever tracking of infeasible individuals -/

/-- Claim C10.  `better_than v absent` is true for every vector,
sentinel-scored ones included; hence after the first individual of the
first generation is processed (`bestEver` starts absent) the best-ever
pointer is set, it stays set in all later generations, and when every
individual seen so far carries the sentinel score the pointer holds a
sentinel-scored individual. -/
theorem better_than_absent_bestEver (gen : ℕ) (pool : List Profile)
    (bestThisRound bestEver : Option Profile) (lastChange : ℕ)
    (hpool : pool ≠ []) (hsent : ∀ p ∈ pool, p.score = -1) :
    (∀ v : Profile, better_than v none = true)
    ∧ (evalPhase gen pool none bestThisRound lastChange).bestEver ≠ none
    ∧ (bestEver ≠ none →
        (evalPhase gen pool bestEver bestThisRound lastChange).bestEver ≠ none)
    ∧ ∃ b, (evalPhase gen pool none bestThisRound lastChange).bestEver = some b
        ∧ b.score = -1 := by
  refine ⟨fun v => rfl, ?_, ?_, ?_⟩
  · exact evalPhase_bestEver_ne_none gen pool none bestThisRound lastChange (Or.inl hpool)
  · intro h
    exact evalPhase_bestEver_ne_none gen pool bestEver bestThisRound lastChange (Or.inr h)
  · have hs : sentinelOpt (evalPhase gen pool none bestThisRound lastChange).bestEver :=
      foldl_evalStep_bestEver_sentinel gen pool _ hsent (Or.inl rfl)
    rcases hs with hs | hs
    · exact absurd hs
        (evalPhase_bestEver_ne_none gen pool none bestThisRound lastChange (Or.inl hpool))
    · exact hs

/-- A sentinel-scored profile, as produced when the simulator fails. -/
def pm1 : Profile := ⟨1, 2, 1/2, 0, -1, 1⟩

/-- Witness for C10 at a concrete one-element, all-infeasible pool. -/
theorem better_than_absent_bestEver_witness :
    ((∀ v : Profile, better_than v none = true)
      ∧ (evalPhase 1 [pm1] none none 0).bestEver ≠ none
      ∧ (some pm1 ≠ none →
          (evalPhase 1 [pm1] (some pm1) none 0).bestEver ≠ none)
      ∧ ∃ b, (evalPhase 1 [pm1] none none 0).bestEver = some b ∧ b.score = -1) :=
  better_than_absent_bestEver 1 [pm1] none (some pm1) 0 (by simp)
    (by intro p hp; simp only [List.mem_singleton] at hp; rw [hp]; rfl)

/-! ### Candidate-list invariants of the evaluation phase -/

theorem evalStep_cand_succ (gen : ℕ) (acc : EvalAcc) (p0 : Profile)
    (h : acc.candidates.length = acc.successes) :
    (evalStep gen acc p0).candidates.length = (evalStep gen acc p0).successes := by
  simp only [evalStep]
  split_ifs <;> simp [h]

theorem foldl_evalStep_cand_succ (gen : ℕ) (l : List Profile) (acc : EvalAcc)
    (h : acc.candidates.length = acc.successes) :
    ((l.foldl (evalStep gen) acc)).candidates.length
      = (l.foldl (evalStep gen) acc).successes := by
  induction l generalizing acc with
  | nil => simpa using h
  | cons p rest ih => exact ih _ (evalStep_cand_succ gen acc p h)

theorem evalPhase_cand_succ (gen : ℕ) (pool : List Profile)
    (bestEver bestThisRound : Option Profile) (lastChange : ℕ) :
    (evalPhase gen pool bestEver bestThisRound lastChange).candidates.length
      = (evalPhase gen pool bestEver bestThisRound lastChange).successes :=
  foldl_evalStep_cand_succ gen pool _ rfl

theorem evalStep_cand_pos (gen : ℕ) (acc : EvalAcc) (p0 : Profile)
    (h : ∀ p ∈ acc.candidates, 0 < p.score) :
    ∀ p ∈ (evalStep gen acc p0).candidates, 0 < p.score := by
  simp only [evalStep]
  split_ifs <;> simp_all <;> intro p hp <;> rcases hp with hp | hp
  all_goals first
    | exact h p hp
    | (rw [hp]; assumption)

theorem foldl_evalStep_cand_pos (gen : ℕ) (l : List Profile) (acc : EvalAcc)
    (h : ∀ p ∈ acc.candidates, 0 < p.score) :
    ∀ p ∈ (l.foldl (evalStep gen) acc).candidates, 0 < p.score := by
  induction l generalizing acc with
  | nil => simpa using h
  | cons p rest ih => exact ih _ (evalStep_cand_pos gen acc p h)

theorem evalPhase_cand_pos (gen : ℕ) (pool : List Profile)
    (bestEver bestThisRound : Option Profile) (lastChange : ℕ) :
    ∀ p ∈ (evalPhase gen pool bestEver bestThisRound lastChange).candidates,
      0 < p.score :=
  foldl_evalStep_cand_pos gen pool _ (by simp)

/-! ### Sorting lemmas -/

theorem insertP_mem (x a : Profile) (l : List Profile) :
    a ∈ insertP x l ↔ a = x ∨ a ∈ l := by
  induction l with
  | nil => simp [insertP]
  | cons y ys ih =>
    unfold insertP
    split
    case isTrue h => simp
    case isFalse h => simp [ih]; tauto

theorem insertP_length (x : Profile) (l : List Profile) :
    (insertP x l).length = l.length + 1 := by
  induction l with
  | nil => rfl
  | cons y ys ih =>
    unfold insertP
    split <;> simp [ih]

theorem foldl_insertP_mem (l : List Profile) (acc : List Profile) (a : Profile) :
    a ∈ l.foldl (fun acc x => insertP x acc) acc ↔ a ∈ acc ∨ a ∈ l := by
  induction l generalizing acc with
  | nil => simp
  | cons p rest ih =>
    rw [List.foldl_cons, ih, insertP_mem]
    simp
    tauto

theorem pySort_mem (l : List Profile) (a : Profile) : a ∈ pySort l ↔ a ∈ l := by
  rw [pySort, foldl_insertP_mem]
  simp

theorem foldl_insertP_length (l : List Profile) (acc : List Profile) :
    (l.foldl (fun acc x => insertP x acc) acc).length = acc.length + l.length := by
  induction l generalizing acc with
  | nil => simp
  | cons p rest ih =>
    rw [List.foldl_cons, ih, insertP_length]
    simp only [List.length_cons]
    omega

theorem pySort_length (l : List Profile) : (pySort l).length = l.length := by
  rw [pySort, foldl_insertP_length]
  simp

/-- Ascending score order, pairwise. -/
def ScoreSorted : List Profile → Prop :=
  List.Pairwise (fun a b => a.score ≤ b.score)

theorem insertP_sorted (x : Profile) (hx : x.score ≠ -1) (l : List Profile)
    (hl : ScoreSorted l) : ScoreSorted (insertP x l) := by
  induction l with
  | nil => simp [insertP, ScoreSorted]
  | cons y ys ih =>
    rw [ScoreSorted, List.pairwise_cons] at hl
    obtain ⟨hy, hys⟩ := hl
    unfold insertP
    split
    case isTrue h =>
      rw [profile_lt, Bool.and_eq_true, decide_eq_true_eq, decide_eq_true_eq] at h
      rw [ScoreSorted, List.pairwise_cons]
      refine ⟨?_, List.pairwise_cons.2 ⟨hy, hys⟩⟩
      intro z hz
      rcases List.mem_cons.1 hz with hz | hz
      · rw [hz]; exact le_of_lt h.2
      · exact le_of_lt (lt_of_lt_of_le h.2 (hy z hz))
    case isFalse h =>
      rw [profile_lt, Bool.and_eq_true, decide_eq_true_eq, decide_eq_true_eq] at h
      push_neg at h
      have hyx : y.score ≤ x.score := h hx
      rw [ScoreSorted, List.pairwise_cons]
      refine ⟨?_, ih hys⟩
      intro z hz
      rcases (insertP_mem x z ys).1 hz with hz | hz
      · rw [hz]; exact hyx
      · exact hy z hz

theorem foldl_insertP_sorted (l : List Profile) (acc : List Profile)
    (hl : ∀ p ∈ l, p.score ≠ -1) (hacc : ScoreSorted acc) :
    ScoreSorted (l.foldl (fun acc x => insertP x acc) acc) := by
  induction l generalizing acc with
  | nil => simpa using hacc
  | cons p rest ih =>
    exact ih _ (fun q hq => hl q (List.mem_cons_of_mem p hq))
      (insertP_sorted p (hl p (List.mem_cons_self p rest)) acc hacc)

theorem pySort_sorted (l : List Profile) (hl : ∀ p ∈ l, p.score ≠ -1) :
    ScoreSorted (pySort l) :=
  foldl_insertP_sorted l [] hl (by simp [ScoreSorted])

/-- The head of the sorted candidate list is a minimum-score candidate. -/
theorem pySort_head_min (l : List Profile) (hpos : ∀ p ∈ l, 0 < p.score)
    (hne : l ≠ []) :
    ∃ c rest, pySort l = c :: rest ∧ c ∈ l ∧ ∀ q ∈ l, c.score ≤ q.score := by
  have hsorted : ScoreSorted (pySort l) :=
    pySort_sorted l (fun p hp => by
      have := hpos p hp
      intro hcon
      rw [hcon] at this
      norm_num at this)
  cases hs : pySort l with
  | nil =>
    exfalso
    have := pySort_length l
    rw [hs] at this
    exact hne (List.length_eq_zero.1 this.symm)
  | cons c rest =>
    refine ⟨c, rest, rfl, (pySort_mem l c).1 (hs ▸ List.mem_cons_self c rest), ?_⟩
    intro q hq
    have hq' : q ∈ c :: rest := hs ▸ (pySort_mem l q).2 hq
    rcases List.mem_cons.1 hq' with hq' | hq'
    · rw [hq']
    · rw [hs] at hsorted
      rw [ScoreSorted, List.pairwise_cons] at hsorted
      exact hsorted.1 q hq'

/-! ### Selection lemmas -/

theorem selectGo_mem (s : ℚ) (orig : List Profile) (l : List Profile) (g : Rand)
    (hsub : ∀ x ∈ l, x ∈ orig) (hne : orig ≠ []) :
    ∃ p, (selectGo s orig l g).1 = some p ∧ p ∈ orig := by
  induction l generalizing g with
  | nil =>
    refine ⟨orig.getLast hne, ?_, List.getLast_mem hne⟩
    simp [selectGo, List.getLast?_eq_getLast orig hne]
  | cons p rest ih =>
    simp only [selectGo]
    split
    case isTrue h =>
      exact ⟨p, rfl, hsub p (List.mem_cons_self p rest)⟩
    case isFalse h =>
      exact ih _ (fun x hx => hsub x (List.mem_cons_of_mem p hx))

theorem select_mem (pool : List Profile) (s : ℚ) (g : Rand) (hne : pool ≠ []) :
    ∃ p, (select pool s g).1 = some p ∧ p ∈ pool :=
  selectGo_mem s pool pool g (fun _ hx => hx) hne

theorem selectGo_decline (s : ℚ) (orig : List Profile) (l : List Profile) (g : Rand)
    (h : ∀ k < l.length, ¬ s < g.qstream (g.qpos + k)) :
    (selectGo s orig l g).1 = orig.getLast? := by
  induction l generalizing g with
  | nil => rfl
  | cons p rest ih =>
    simp only [selectGo]
    rw [if_neg]
    · refine ih _ ?_
      intro k hk
      have hidx : g.qpos + 1 + k = g.qpos + (k + 1) := by omega
      simp only [Rand.nextQ, hidx]
      exact h (k + 1) (by simpa using Nat.succ_lt_succ hk)
    · have := h 0 (by simp)
      simpa [Rand.nextQ] using this

theorem select_decline (pool : List Profile) (s : ℚ) (g : Rand)
    (h : ∀ k < pool.length, ¬ s < g.qstream (g.qpos + k)) :
    (select pool s g).1 = pool.getLast? :=
  selectGo_decline s pool pool g h

/-! ### Claim C9: safety of `select` and the `pool[-1]` fallback -/

/-- Claim C9.  `select` always terminates (it is a total function of the
embedding); on every non-empty list it returns an element of the list,
and when every draw declines (`random.random() > s` fails at every
position) it returns the last element `pool[-1]`.  Inside the generation
loop the crossover loop is the only caller of `select`: its guard
`len(newPool) < min(poolSize / 2, successes)` can only hold when
`successes ≥ 1`, and the evaluation phase puts exactly `successes`
profiles into `candidates`, so `select` is only invoked on a non-empty
candidate list and the `pool[-1]` fallback never faults. -/
theorem select_safe (pool : List Profile) (s : ℚ) (g : Rand) (n ps gen : ℕ)
    (poolG : List Profile) (bestEver bestThisRound : Option Profile)
    (lastChange : ℕ) (hne : pool ≠ [])
    (hdecl : ∀ k < pool.length, ¬ s < g.qstream (g.qpos + k)) :
    (∃ p, (select pool s g).1 = some p ∧ p ∈ pool)
    ∧ (select pool s g).1 = pool.getLast?
    ∧ (evalPhase gen poolG bestEver bestThisRound lastChange).candidates.length
        = (evalPhase gen poolG bestEver bestThisRound lastChange).successes
    ∧ (n < min (ps / 2) (evalPhase gen poolG bestEver bestThisRound lastChange).successes →
        (evalPhase gen poolG bestEver bestThisRound lastChange).candidates ≠ []) := by
  refine ⟨select_mem pool s g hne, select_decline pool s g hdecl,
    evalPhase_cand_succ gen poolG bestEver bestThisRound lastChange, ?_⟩
  intro hcond
  have hsucc : 0 < (evalPhase gen poolG bestEver bestThisRound lastChange).successes :=
    lt_of_le_of_lt (Nat.zero_le n) (lt_of_lt_of_le hcond (min_le_right _ _))
  intro hcand
  rw [← evalPhase_cand_succ gen poolG bestEver bestThisRound lastChange, hcand] at hsucc
  simp at hsucc

/-- Witness for C9 at a concrete pool and an all-declining random
source (`qstream ≡ 0 ≤ s = 1/2`). -/
theorem select_safe_witness :
    (∃ p, (select [p5, pone] (1/2) g0).1 = some p ∧ p ∈ [p5, pone])
    ∧ (select [p5, pone] (1/2) g0).1 = [p5, pone].getLast?
    ∧ (evalPhase 1 [p5] (some p5) (some p5) 0).candidates.length
        = (evalPhase 1 [p5] (some p5) (some p5) 0).successes
    ∧ (0 < min (4 / 2) (evalPhase 1 [p5] (some p5) (some p5) 0).successes →
        (evalPhase 1 [p5] (some p5) (some p5) 0).candidates ≠ []) :=
  select_safe [p5, pone] (1/2) g0 0 4 1 [p5] (some p5) (some p5) 0 (by simp)
    (by intro k _; norm_num [g0])

/-! ### Loop-structure lemmas -/

theorem crossLoop_prefix (cfg : Config) (cands : List Profile) (bound : ℕ) :
    ∀ (fuel : ℕ) (acc : List Profile) (st : CacheSt) (g : Rand),
      ∃ t, (crossLoop cfg cands bound fuel acc st g).1 = acc ++ t := by
  intro fuel
  induction fuel with
  | zero => intro acc st g; exact ⟨[], by simp [crossLoop]⟩
  | succ n ih =>
    intro acc st g
    simp only [crossLoop]
    split
    case isTrue h =>
      split
      case _ a b heq1 heq2 =>
        obtain ⟨t, ht⟩ := ih (acc ++ [(combineP cfg a b st (select cands (1/2)
          (select cands (1/2) g).2).2).1]) _ _
        exact ⟨_, ht.trans (List.append_assoc acc _ t)⟩
      case _ => exact ⟨[], by simp⟩
    case isFalse h => exact ⟨[], by simp⟩

theorem crossLoop_length_le (cfg : Config) (cands : List Profile) (bound : ℕ) :
    ∀ (fuel : ℕ) (acc : List Profile) (st : CacheSt) (g : Rand),
      ((crossLoop cfg cands bound fuel acc st g).1).length ≤ max acc.length bound := by
  intro fuel
  induction fuel with
  | zero => intro acc st g; simp [crossLoop, le_max_left]
  | succ n ih =>
    intro acc st g
    simp only [crossLoop]
    split
    case isTrue h =>
      split
      case _ a b heq1 heq2 =>
        refine le_trans (ih _ _ _) ?_
        simp only [List.length_append, List.length_cons, List.length_nil]
        exact Nat.max_le.2 ⟨by omega, le_max_right _ _⟩
      case _ => exact le_max_left _ _
    case isFalse h => exact le_max_left _ _

theorem refillLoop_prefix (cfg : Config) (ps : ℕ) :
    ∀ (fuel : ℕ) (acc : List Profile) (st : CacheSt) (g : Rand),
      ∃ t, (refillLoop cfg ps fuel acc st g).1 = acc ++ t := by
  intro fuel
  induction fuel with
  | zero => intro acc st g; exact ⟨[], by simp [refillLoop]⟩
  | succ n ih =>
    intro acc st g
    simp only [refillLoop]
    split
    case isTrue h =>
      obtain ⟨t, ht⟩ := ih (acc ++ [(randomP cfg st g).1]) _ _
      exact ⟨_, ht.trans (List.append_assoc acc _ t)⟩
    case isFalse h => exact ⟨[], by simp⟩

theorem refillLoop_length (cfg : Config) (ps : ℕ) :
    ∀ (fuel : ℕ) (acc : List Profile) (st : CacheSt) (g : Rand),
      ps ≤ acc.length + fuel →
      ((refillLoop cfg ps fuel acc st g).1).length = max acc.length ps := by
  intro fuel
  induction fuel with
  | zero =>
    intro acc st g h
    simp only [refillLoop]
    show acc.length = max acc.length ps
    exact (Nat.max_eq_left (by omega)).symm
  | succ n ih =>
    intro acc st g h
    simp only [refillLoop]
    split
    case isTrue hlt =>
      rw [ih _ _ _ (by simp only [List.length_append, List.length_cons,
        List.length_nil]; omega)]
      simp only [List.length_append, List.length_cons, List.length_nil]
      rw [Nat.max_eq_right (by omega), Nat.max_eq_right (by omega)]
    case isFalse hge =>
      show acc.length = max acc.length ps
      exact (Nat.max_eq_left (by omega)).symm

theorem reproducePhase_length_le (cfg : Config) (ps : ℕ) (cands : List Profile)
    (succ : ℕ) (st : CacheSt) (g : Rand) :
    ((reproducePhase cfg ps cands succ st g).1).length
      ≤ max 2 (min (ps / 2) succ) := by
  unfold reproducePhase
  cases cands with
  | nil =>
    refine le_trans (crossLoop_length_le cfg [] _ _ [] st g) ?_
    simp only [List.length_nil]
    exact Nat.max_le.2 ⟨by omega, le_max_right _ _⟩
  | cons c rest =>
    refine le_trans (crossLoop_length_le cfg _ _ _ _ _ _) ?_
    simp only [List.length_cons, List.length_nil]
    exact Nat.max_le.2 ⟨le_max_left _ _, le_max_right _ _⟩

/-- The elitism seeds head the reproduced pool: with sorted candidates
`c :: rest`, the reproduction phase returns `c`, then one mutation of
`c`, then the crossover offspring. -/
theorem reproducePhase_seeded (cfg : Config) (ps : ℕ) (c : Profile)
    (rest : List Profile) (succ : ℕ) (st : CacheSt) (g : Rand) :
    ∃ t, (reproducePhase cfg ps (c :: rest) succ st g).1
      = c :: (mutatedP cfg c st g).1 :: t := by
  unfold reproducePhase
  obtain ⟨t, ht⟩ := crossLoop_prefix cfg (c :: rest) (min (ps / 2) succ)
    (min (ps / 2) succ) [c, (mutatedP cfg c st g).1] (mutatedP cfg c st g).2.1
    (mutatedP cfg c st g).2.2
  exact ⟨t, ht⟩

/-! ### Claim C8: population size after refill -/

/-- Claim C8 counterexample: with the configured pool size `1` (which
satisfies the claim's `poolSize ≥ 1`) and a generation holding one
candidate, the next generation's population has `2` members — the elite
and its mutation — not `poolSize`. -/
theorem poolsize_one_counterexample :
    (1 : ℕ) ≤ 1 ∧ ((stepGen cfg0 1 s1).pool).length = 2 := by
  refine ⟨le_refl 1, ?_⟩
  norm_num [stepGen, genEval, genRepro, evalPhase, evalStep, better_than, worse_than,
    reproducePhase, pySort, insertP, mutatedP, pymutate, mkProfile, quantKey, pyRound,
    rha, cacheGet, calc_score, crossLoop, refillLoop, randomP, select, selectGo,
    profile_lt, Rand.nextQ, Rand.nextI, cfg0, s1, p5, st5, g0, STABLE_ITERATIONS,
    MAX_CACHE_SIZE, VARY_END_ANGLE, combineP, combineVal]

/-- Claim C8 (amended).  For every configured pool size of at least `2`,
after the refill step the next generation's population contains exactly
`poolSize` individuals (with pool size `1` the elitism seeds alone can
overshoot, see the counterexample). -/
theorem poolsize_invariant (cfg : Config) (ps : ℕ) (s : LoopSt) (h : 2 ≤ ps) :
    ((stepGen cfg ps s).pool).length = ps := by
  have hrep : ((genRepro cfg ps s).1).length ≤ ps := by
    refine le_trans (reproducePhase_length_le cfg ps _ _ _ _) ?_
    have h2 : ps / 2 ≤ ps := Nat.div_le_self ps 2
    exact Nat.max_le.2 ⟨h, le_trans (min_le_left _ _) h2⟩
  simp only [stepGen]
  split
  case isTrue hfire =>
    simp only
    rw [refillLoop_length cfg ps ps [] _ _ (by simp)]
    simp
  case isFalse hnofire =>
    simp only
    rw [refillLoop_length cfg ps ps _ _ _ (by omega)]
    exact Nat.max_eq_right hrep

/-- Witness for the amended C8 at pool size `2`. -/
theorem poolsize_invariant_witness :
    ((stepGen cfg0 2 s1).pool).length = 2 :=
  poolsize_invariant cfg0 2 s1 (le_refl 2)

/-! ### Claim C1: elitism -/

/-- Claim C1 counterexample: at a stagnant generation (difference exactly
`STABLE_ITERATIONS`) that still holds a candidate, the reset discards the
elitism seeds: the next pool is a single fresh random profile and the
generation's lowest-scoring candidate is absent, so elitism does not hold
for *every* generation with a candidate. -/
theorem elitism_reset_counterexample :
    (genEval s0).candidates = [⟨1, 2, 1/2, 0, 5, 1000⟩]
    ∧ (stepGen cfg0 1 s0).pool = [⟨0, 0, 0, 0, 5, 1⟩]
    ∧ (⟨1, 2, 1/2, 0, 5, 1000⟩ : Profile) ∉ (stepGen cfg0 1 s0).pool := by
  refine ⟨?_, ?_, ?_⟩ <;>
    norm_num [stepGen, genEval, genRepro, evalPhase, evalStep, better_than, worse_than,
      reproducePhase, pySort, insertP, mutatedP, pymutate, mkProfile, quantKey, pyRound,
      rha, cacheGet, calc_score, crossLoop, refillLoop, randomP, select, selectGo,
      profile_lt, Rand.nextQ, Rand.nextI, cfg0, s0, p5, st5, g0, STABLE_ITERATIONS,
      MAX_CACHE_SIZE, VARY_END_ANGLE, combineP, combineVal]

/-- Claim C1 (amended).  For every generation with at least one
candidate at which the stagnation reset does not fire, the next pool
starts with a lowest-scoring candidate of the generation, value-for-value
unchanged, immediately followed by one mutated copy of it. -/
theorem elitism_amended (cfg : Config) (ps : ℕ) (s : LoopSt)
    (hcand : (genEval s).candidates ≠ [])
    (hnr : ¬ ((genEval s).lastChange + STABLE_ITERATIONS ≤ s.gen)) :
    ∃ c t, (stepGen cfg ps s).pool = c :: (mutatedP cfg c s.cache s.rng).1 :: t
      ∧ c ∈ (genEval s).candidates
      ∧ ∀ q ∈ (genEval s).candidates, c.score ≤ q.score := by
  obtain ⟨c, rest, hsort, hcmem, hcmin⟩ :=
    pySort_head_min (genEval s).candidates
      (evalPhase_cand_pos s.gen s.pool s.bestEver s.bestThisRound s.lastChange) hcand
  have hrepro : genRepro cfg ps s
      = reproducePhase cfg ps (c :: rest) (genEval s).successes s.cache s.rng := by
    rw [genRepro, hsort]
  obtain ⟨t1, ht1⟩ :=
    reproducePhase_seeded cfg ps c rest (genEval s).successes s.cache s.rng
  obtain ⟨t2, ht2⟩ := refillLoop_prefix cfg ps ps (genRepro cfg ps s).1
    (genRepro cfg ps s).2.1 (genRepro cfg ps s).2.2
  refine ⟨c, t1 ++ t2, ?_, hcmem, hcmin⟩
  simp only [stepGen]
  rw [if_neg hnr]
  show (refillLoop cfg ps ps (genRepro cfg ps s).1 (genRepro cfg ps s).2.1
    (genRepro cfg ps s).2.2).1 = _
  rw [ht2, hrepro, ht1]
  simp

/-- Witness for the amended C1: at the fresh state `s1` with pool size
`3`, the elite `p5` (relabelled to generation `1`) heads the next pool,
followed by its mutation. -/
theorem elitism_amended_witness :
    (genEval s1).candidates ≠ []
    ∧ ¬ ((genEval s1).lastChange + STABLE_ITERATIONS ≤ s1.gen)
    ∧ ∃ c t, (stepGen cfg0 3 s1).pool = c :: (mutatedP cfg0 c s1.cache s1.rng).1 :: t
        ∧ c ∈ (genEval s1).candidates
        ∧ ∀ q ∈ (genEval s1).candidates, c.score ≤ q.score := by
  have h1 : (genEval s1).candidates ≠ [] := by
    norm_num [genEval, evalPhase, evalStep, better_than, worse_than, s1, p5, st5, g0]
  have h2 : ¬ ((genEval s1).lastChange + STABLE_ITERATIONS ≤ s1.gen) := by
    norm_num [genEval, evalPhase, evalStep, better_than, worse_than, s1, p5, st5, g0,
      STABLE_ITERATIONS]
  exact ⟨h1, h2, elitism_amended cfg0 3 s1 h1 h2⟩

/-! ### Claim C2: stagnation reset -/

/-- Claim C2 counterexample: at state `s0` the difference between the
current generation and the last improvement is exactly the window
(`1000`), which does not strictly exceed it — yet the reset fires: the
reproduced members are discarded, `bestThisRound` is forgotten and the
clock restarts, contradicting the claim that no reset occurs when the
difference is at most the window. -/
theorem stagnation_threshold_counterexample :
    (genEval s0).lastChange = 0
    ∧ s0.gen = 1000
    ∧ ¬ (STABLE_ITERATIONS < s0.gen - (genEval s0).lastChange)
    ∧ (genEval s0).bestThisRound = some p5
    ∧ (stepGen cfg0 1 s0).bestThisRound = none
    ∧ (stepGen cfg0 1 s0).lastChange = 1000 := by
  refine ⟨?_, rfl, ?_, ?_, ?_, ?_⟩ <;>
    norm_num [stepGen, genEval, genRepro, evalPhase, evalStep, better_than, worse_than,
      reproducePhase, pySort, insertP, mutatedP, pymutate, mkProfile, quantKey, pyRound,
      rha, cacheGet, calc_score, crossLoop, refillLoop, randomP, select, selectGo,
      profile_lt, Rand.nextQ, Rand.nextI, cfg0, s0, p5, st5, g0, STABLE_ITERATIONS,
      MAX_CACHE_SIZE, VARY_END_ANGLE, combineP, combineVal]

/-- Claim C2 (amended).  The reset fires exactly when the current
generation minus the generation of the last best-this-round improvement
is **at least** the stability window (`gen >= lastChange +
STABLE_ITERATIONS`).  When it fires, the reproduced members are
discarded and the next pool is rebuilt by refilling from the empty list,
the fitness cache is cleared before the refill repopulates it, the
stagnation clock restarts from the current generation, `bestThisRound`
is forgotten, and the best-ever individual remains remembered outside
the population.  When the difference is below the window no reset
occurs: the reproduced members are kept and the clock, `bestThisRound`
and `bestEver` carry over from the evaluation phase. -/
theorem stagnation_reset_spec (cfg : Config) (ps : ℕ) (s : LoopSt) :
    (((genEval s).lastChange + STABLE_ITERATIONS ≤ s.gen) ↔
        STABLE_ITERATIONS ≤ s.gen - (genEval s).lastChange)
    ∧ ((genEval s).lastChange + STABLE_ITERATIONS ≤ s.gen →
        (stepGen cfg ps s).pool
            = (refillLoop cfg ps ps [] ⟨[], (genRepro cfg ps s).2.1.evalCount⟩
                (genRepro cfg ps s).2.2).1
          ∧ (stepGen cfg ps s).cache
            = (refillLoop cfg ps ps [] ⟨[], (genRepro cfg ps s).2.1.evalCount⟩
                (genRepro cfg ps s).2.2).2.1
          ∧ (stepGen cfg ps s).lastChange = s.gen
          ∧ (stepGen cfg ps s).bestThisRound = none
          ∧ (stepGen cfg ps s).bestEver = (genEval s).bestEver)
    ∧ (¬ ((genEval s).lastChange + STABLE_ITERATIONS ≤ s.gen) →
        (stepGen cfg ps s).pool
            = (refillLoop cfg ps ps (genRepro cfg ps s).1 (genRepro cfg ps s).2.1
                (genRepro cfg ps s).2.2).1
          ∧ (stepGen cfg ps s).cache
            = (refillLoop cfg ps ps (genRepro cfg ps s).1 (genRepro cfg ps s).2.1
                (genRepro cfg ps s).2.2).2.1
          ∧ (stepGen cfg ps s).lastChange = (genEval s).lastChange
          ∧ (stepGen cfg ps s).bestThisRound = (genEval s).bestThisRound
          ∧ (stepGen cfg ps s).bestEver = (genEval s).bestEver) := by
  refine ⟨by simp only [STABLE_ITERATIONS]; omega, fun h => ?_, fun h => ?_⟩
  · simp only [stepGen]
    rw [if_pos h]
    exact ⟨rfl, rfl, rfl, rfl, rfl⟩
  · simp only [stepGen]
    rw [if_neg h]
    exact ⟨rfl, rfl, rfl, rfl, rfl⟩

/-- Witness for the amended C2: at `s0` the reset condition holds with
the difference exactly the window, and the reset effects are observed. -/
theorem stagnation_reset_spec_witness :
    ((genEval s0).lastChange + STABLE_ITERATIONS ≤ s0.gen)
    ∧ (stepGen cfg0 1 s0).lastChange = s0.gen
    ∧ (stepGen cfg0 1 s0).bestThisRound = none := by
  have hfire : (genEval s0).lastChange + STABLE_ITERATIONS ≤ s0.gen := by
    norm_num [genEval, evalPhase, evalStep, better_than, worse_than, s0, p5, st5, g0,
      STABLE_ITERATIONS]
  exact ⟨hfire, ((stagnation_reset_spec cfg0 1 s0).2.1 hfire).2.2.1,
    ((stagnation_reset_spec cfg0 1 s0).2.1 hfire).2.2.2.1⟩

/-! ### Claim C6: quantisation and the fitness cache -/

theorem cacheGet_cons_self (k : ℚ × ℚ × ℚ × ℚ) (v : ℚ)
    (rest : List ((ℚ × ℚ × ℚ × ℚ) × ℚ)) :
    cacheGet ((k, v) :: rest) k = some v := by
  simp [cacheGet]

theorem quantKey_congr (cfg : Config) (a b c d a' b' c' d' : ℚ)
    (h0 : pyRound 2 a = pyRound 2 a') (h1 : pyRound 2 b = pyRound 2 b')
    (h2 : pyRound 3 c = pyRound 3 c') (h3 : pyRound 2 d = pyRound 2 d') :
    quantKey cfg a b c d = quantKey cfg a' b' c' d' := by
  simp [quantKey, h0, h1, h2, h3]

theorem mkProfile_hit (cfg : Config) (st : CacheSt) (g : Rand) (a b c d v : ℚ)
    (hh : cacheGet st.entries (quantKey cfg a b c d) = some v) :
    mkProfile cfg st g a b c d
      = (⟨(quantKey cfg a b c d).1, (quantKey cfg a b c d).2.1,
          (quantKey cfg a b c d).2.2.1, (quantKey cfg a b c d).2.2.2, v, 1⟩, st, g) := by
  simp [mkProfile, hh]

theorem mkProfile_miss_profile (cfg : Config) (st : CacheSt) (g : Rand) (a b c d : ℚ)
    (hm : cacheGet st.entries (quantKey cfg a b c d) = none) :
    (mkProfile cfg st g a b c d).1
      = ⟨(quantKey cfg a b c d).1, (quantKey cfg a b c d).2.1,
         (quantKey cfg a b c d).2.2.1, (quantKey cfg a b c d).2.2.2,
         calc_score cfg (quantKey cfg a b c d).1 (quantKey cfg a b c d).2.1
           (quantKey cfg a b c d).2.2.1 (quantKey cfg a b c d).2.2.2, 1⟩ := by
  simp [mkProfile, hm]

theorem mkProfile_miss_count (cfg : Config) (st : CacheSt) (g : Rand) (a b c d : ℚ)
    (hm : cacheGet st.entries (quantKey cfg a b c d) = none) :
    (mkProfile cfg st g a b c d).2.1.evalCount = st.evalCount + 1 := by
  simp [mkProfile, hm]

theorem mkProfile_miss_entries (cfg : Config) (st : CacheSt) (g : Rand) (a b c d : ℚ)
    (hm : cacheGet st.entries (quantKey cfg a b c d) = none) :
    ∃ tail, (mkProfile cfg st g a b c d).2.1.entries
      = (quantKey cfg a b c d,
         calc_score cfg (quantKey cfg a b c d).1 (quantKey cfg a b c d).2.1
           (quantKey cfg a b c d).2.2.1 (quantKey cfg a b c d).2.2.2) :: tail := by
  simp only [mkProfile, hm]
  exact ⟨_, rfl⟩

/-- Claim C6.  Constructing two Parameter Vectors from raw inputs that
agree after the fixed rounding (2 decimal places for the altitudes and
the end angle, 3 for the curve exponent), starting from a cache with the
quantised key absent: the two constructions share the same quantised key
and the same score, the Evaluator Adapter is invoked exactly once by the
first construction (`evalCount` increments), and not at all by the
second (it reuses the cached score). -/
theorem quantization_cache (cfg : Config) (st : CacheSt) (g : Rand)
    (a b c d a' b' c' d' : ℚ)
    (h0 : pyRound 2 a = pyRound 2 a') (h1 : pyRound 2 b = pyRound 2 b')
    (h2 : pyRound 3 c = pyRound 3 c') (h3 : pyRound 2 d = pyRound 2 d')
    (hm : cacheGet st.entries (quantKey cfg a b c d) = none) :
    profileKey (mkProfile cfg st g a b c d).1
      = profileKey (mkProfile cfg (mkProfile cfg st g a b c d).2.1
          (mkProfile cfg st g a b c d).2.2 a' b' c' d').1
    ∧ (mkProfile cfg st g a b c d).1.score
      = (mkProfile cfg (mkProfile cfg st g a b c d).2.1
          (mkProfile cfg st g a b c d).2.2 a' b' c' d').1.score
    ∧ (mkProfile cfg st g a b c d).2.1.evalCount = st.evalCount + 1
    ∧ (mkProfile cfg (mkProfile cfg st g a b c d).2.1
        (mkProfile cfg st g a b c d).2.2 a' b' c' d').2.1.evalCount
      = (mkProfile cfg st g a b c d).2.1.evalCount := by
  have hkey : quantKey cfg a' b' c' d' = quantKey cfg a b c d :=
    (quantKey_congr cfg a b c d a' b' c' d' h0 h1 h2 h3).symm
  obtain ⟨tail, htail⟩ := mkProfile_miss_entries cfg st g a b c d hm
  have hh : cacheGet (mkProfile cfg st g a b c d).2.1.entries
      (quantKey cfg a' b' c' d')
      = some (calc_score cfg (quantKey cfg a b c d).1 (quantKey cfg a b c d).2.1
          (quantKey cfg a b c d).2.2.1 (quantKey cfg a b c d).2.2.2) := by
    rw [htail, hkey]
    exact cacheGet_cons_self _ _ _
  have h2nd := mkProfile_hit cfg (mkProfile cfg st g a b c d).2.1
    (mkProfile cfg st g a b c d).2.2 a' b' c' d' _ hh
  refine ⟨?_, ?_, mkProfile_miss_count cfg st g a b c d hm, ?_⟩
  · rw [mkProfile_miss_profile cfg st g a b c d hm, h2nd, hkey]
  · rw [mkProfile_miss_profile cfg st g a b c d hm, h2nd]
  · rw [h2nd]

/-- Witness for C6 at concrete sub-precision inputs
(`1.001` vs `1.002`, `0.5` vs `0.5001`, `0` vs `0.001`) over the empty
cache: one evaluator call, shared key and score. -/
theorem quantization_cache_witness :
    profileKey (mkProfile cfg0 ⟨[], 0⟩ g0 (1001/1000) 2 (1/2) 0).1
      = profileKey (mkProfile cfg0 (mkProfile cfg0 ⟨[], 0⟩ g0 (1001/1000) 2 (1/2) 0).2.1
          (mkProfile cfg0 ⟨[], 0⟩ g0 (1001/1000) 2 (1/2) 0).2.2
          (1002/1000) 2 (5001/10000) (1/1000)).1
    ∧ (mkProfile cfg0 ⟨[], 0⟩ g0 (1001/1000) 2 (1/2) 0).1.score
      = (mkProfile cfg0 (mkProfile cfg0 ⟨[], 0⟩ g0 (1001/1000) 2 (1/2) 0).2.1
          (mkProfile cfg0 ⟨[], 0⟩ g0 (1001/1000) 2 (1/2) 0).2.2
          (1002/1000) 2 (5001/10000) (1/1000)).1.score
    ∧ (mkProfile cfg0 ⟨[], 0⟩ g0 (1001/1000) 2 (1/2) 0).2.1.evalCount = 0 + 1
    ∧ (mkProfile cfg0 (mkProfile cfg0 ⟨[], 0⟩ g0 (1001/1000) 2 (1/2) 0).2.1
        (mkProfile cfg0 ⟨[], 0⟩ g0 (1001/1000) 2 (1/2) 0).2.2
        (1002/1000) 2 (5001/10000) (1/1000)).2.1.evalCount
      = (mkProfile cfg0 ⟨[], 0⟩ g0 (1001/1000) 2 (1/2) 0).2.1.evalCount :=
  quantization_cache cfg0 ⟨[], 0⟩ g0 (1001/1000) 2 (1/2) 0 (1002/1000) 2
    (5001/10000) (1/1000)
    (by norm_num [pyRound, rha])
    (by norm_num [pyRound, rha])
    (by norm_num [pyRound, rha])
    (by norm_num [pyRound, rha])
    rfl

/-! ### Claims C3 and C4: warm start and line parsing -/

/-- The 4-field legacy state-file line shown in the source's own comment
above `Profile.random` (`#9.72 23.87 0.3381 1119.067026`). -/
def c4line : PyStr := ("9.72 23.87 0.3381 1119.067026").data

/-- A 5-field state-file line `gt0 gt1 curve endAngle score`. -/
def line0 : PyStr := ("1 2 0.5 0 5").data

/-- A concrete model of Python's `float` string conversion covering the
tokens of the fixture lines. -/
def pyFloat0 : PyStr → Option ℚ := fun s =>
  if s = ("9.72").data then some (972/100)
  else if s = ("23.87").data then some (2387/100)
  else if s = ("0.3381").data then some (3381/10000)
  else if s = ("1119.067026").data then some (1119067026/1000000)
  else if s = ("1").data then some 1
  else if s = ("2").data then some 2
  else if s = ("0.5").data then some (1/2)
  else if s = ("0").data then some 0
  else if s = ("5").data then some 5
  else none

/-- Claim C4 (code bug).  The source's own comment documents the 4-field
line format `start end curve score`, but `from_string` tests
`len(tokens) == 5` — making its `tokens.append(-1)` dead, since the
`[:5]` slice discards it — so a 4-field line unpacks 4 values into 5
targets and raises `ValueError` instead of parsing with a defaulted end
angle: all four fields convert to numbers, yet parsing returns no
Parameter Vector (modelled as `none`), both at the string level and at
the token level. -/
theorem from_string_four_fields_fails :
    (pySplitSpace (pyStrip c4line)).mapM pyFloat0
      = some [972/100, 2387/100, 3381/10000, 1119067026/1000000]
    ∧ from_string pyFloat0 cfg0 ⟨[], 0⟩ g0 c4line = none
    ∧ from_tokens cfg0 ⟨[], 0⟩ g0 [972/100, 2387/100, 3381/10000, 1119067026/1000000]
      = none :=
  ⟨rfl, rfl, rfl⟩

/-- Claim C3 counterexample: in a silent run (`SILENT = True`, the
module default, as in profiling mode) the state file exists and its one
line parses to the vector `(1, 2, 0.5, 0)`, yet the initial population
is a single fresh random vector and the parsed vector is absent — the
`and not SILENT` conjunct suppresses the warm start. -/
theorem warm_start_silent_counterexample :
    from_string pyFloat0 cfg0 ⟨[], 0⟩ g0 line0
      = some (⟨1, 2, 1/2, 0, 5, 1⟩, ⟨[((1, 2, 1/2, 0), 5)], 1⟩, g0)
    ∧ (initialPool pyFloat0 cfg0 true true [line0] 1 ⟨[], 0⟩ g0).map (fun lg => lg.1)
      = some [⟨0, 0, 0, 0, 5, 1⟩]
    ∧ (⟨1, 2, 1/2, 0, 5, 1⟩ : Profile) ∉ [(⟨0, 0, 0, 0, 5, 1⟩ : Profile)] := by
  have hparse : (pySplitSpace (pyStrip line0)).mapM pyFloat0
      = some [1, 2, 1/2, 0, 5] := rfl
  refine ⟨?_, ?_, ?_⟩
  · rw [from_string, hparse]
    norm_num [from_tokens, mkProfile, quantKey, pyRound, rha, cacheGet, calc_score,
      cfg0, VARY_END_ANGLE, MAX_CACHE_SIZE]
  · norm_num [initialPool, refillLoop, randomP, mkProfile, quantKey, pyRound, rha,
      cacheGet, calc_score, Rand.nextQ, cfg0, g0, VARY_END_ANGLE, MAX_CACHE_SIZE]
  · norm_num

theorem loadPool_length (pf : PyStr → Option ℚ) (cfg : Config) :
    ∀ (lines : List PyStr) (st : CacheSt) (g : Rand) (pool : List Profile)
      (st' : CacheSt) (g' : Rand),
      loadPool pf cfg lines st g = some (pool, st', g') →
      pool.length = (lines.filter keptLine).length := by
  intro lines
  induction lines with
  | nil =>
    intro st g pool st' g' h
    simp only [loadPool] at h
    injection h with h
    injection h with h1 h2
    rw [← h1]
    rfl
  | cons s rest ih =>
    intro st g pool st' g' h
    simp only [loadPool] at h
    by_cases hk : keptLine s
    · rw [if_pos hk] at h
      cases hfs : from_string pf cfg st g (pyStrip s) with
      | none =>
        simp only [hfs] at h
        exact Option.noConfusion h
      | some pg =>
        simp only [hfs] at h
        cases hlp : loadPool pf cfg rest pg.2.1 pg.2.2 with
        | none =>
          simp only [hlp] at h
          exact Option.noConfusion h
        | some rg =>
          simp only [hlp] at h
          injection h with h
          injection h with h1 h2
          rw [← h1, List.filter_cons_of_pos hk]
          simp only [List.length_cons]
          rw [ih pg.2.1 pg.2.2 rg.1 rg.2.1 rg.2.2 (by rw [hlp])]
    · rw [if_neg hk] at h
      rw [List.filter_cons_of_neg (by simpa using hk)]
      exact ih st g pool st' g' h

/-- Claim C3 (amended).  In a **non-silent** run with an existing state
file whose kept lines all parse, the initial population is built by
parsing one Parameter Vector from each non-blank, non-comment line (the
parsed pool has exactly one member per kept line) and is then padded
with freshly sampled random vectors until it reaches the configured pool
size (the parsed pool is a prefix of the result, whose length is
`max (parsed count) poolSize`). -/
theorem warm_start_non_silent (pf : PyStr → Option ℚ) (cfg : Config)
    (lines : List PyStr) (ps : ℕ) (st : CacheSt) (g : Rand)
    (pool : List Profile) (st' : CacheSt) (g' : Rand)
    (hload : loadPool pf cfg lines st g = some (pool, st', g')) :
    initialPool pf cfg false true lines ps st g
      = some (refillLoop cfg ps ps pool st' g')
    ∧ pool.length = (lines.filter keptLine).length
    ∧ (∃ t, (refillLoop cfg ps ps pool st' g').1 = pool ++ t)
    ∧ ((refillLoop cfg ps ps pool st' g').1).length = max pool.length ps := by
  refine ⟨?_, loadPool_length pf cfg lines st g pool st' g' hload, ?_, ?_⟩
  · simp [initialPool, hload]
  · exact refillLoop_prefix cfg ps ps pool st' g'
  · exact refillLoop_length cfg ps ps pool st' g' (by omega)

/-- Witness for the amended C3: warm start from a one-line file in a
non-silent run with pool size `2` — the parsed vector heads the initial
population and one random vector pads it. -/
theorem warm_start_non_silent_witness :
    initialPool pyFloat0 cfg0 false true [line0] 2 ⟨[], 0⟩ g0
      = some (refillLoop cfg0 2 2 [⟨1, 2, 1/2, 0, 5, 1⟩]
          ⟨[((1, 2, 1/2, 0), 5)], 1⟩ g0)
    ∧ ([(⟨1, 2, 1/2, 0, 5, 1⟩ : Profile)]).length = ([line0].filter keptLine).length
    ∧ (∃ t, (refillLoop cfg0 2 2 [⟨1, 2, 1/2, 0, 5, 1⟩]
          ⟨[((1, 2, 1/2, 0), 5)], 1⟩ g0).1 = [⟨1, 2, 1/2, 0, 5, 1⟩] ++ t)
    ∧ ((refillLoop cfg0 2 2 [⟨1, 2, 1/2, 0, 5, 1⟩]
          ⟨[((1, 2, 1/2, 0), 5)], 1⟩ g0).1).length
        = max ([(⟨1, 2, 1/2, 0, 5, 1⟩ : Profile)]).length 2 := by
  have hparse : (pySplitSpace (pyStrip (pyStrip line0))).mapM pyFloat0
      = some [1, 2, 1/2, 0, 5] := rfl
  have hfs : from_string pyFloat0 cfg0 ⟨[], 0⟩ g0 (pyStrip line0)
      = some (⟨1, 2, 1/2, 0, 5, 1⟩, ⟨[((1, 2, 1/2, 0), 5)], 1⟩, g0) := by
    rw [from_string, hparse]
    norm_num [from_tokens, mkProfile, quantKey, pyRound, rha, cacheGet, calc_score,
      cfg0, VARY_END_ANGLE, MAX_CACHE_SIZE]
  have hload : loadPool pyFloat0 cfg0 [line0] ⟨[], 0⟩ g0
      = some ([⟨1, 2, 1/2, 0, 5, 1⟩], ⟨[((1, 2, 1/2, 0), 5)], 1⟩, g0) := by
    simp only [loadPool]
    rw [if_pos (by decide), hfs]
  exact warm_start_non_silent pyFloat0 cfg0 [line0] 2 ⟨[], 0⟩ g0
    [⟨1, 2, 1/2, 0, 5, 1⟩] ⟨[((1, 2, 1/2, 0), 5)], 1⟩ g0 hload

end LearnAscent
